import Mathlib

/-
Verification of the concurrency-primitives specification of the
`rust-concurrency` repository (src/src/main.rs).

The repository's demo routines exercise the standard library's
multi-producer single-consumer channel, mutex and thread-join
primitives.  The primitives themselves are not part of the repository
source, so their state-transition semantics below are modelled from the
specification; the demo routines (the data they send, the loops they
run) are translated from src/src/main.rs.
-/

namespace RustConc

/-- Errors returned by channel operations. -/
inductive ChanError where
  | Disconnected
  | Empty
deriving DecidableEq, Repr

/-- Modelled from the spec: a Channel is one shared FIFO queue of
moved-ownership messages, with a count of live producer (Sender) ends and
a flag recording whether the single consumer (Receiver) end is alive.
The head of `queue` is the next message `recv` returns. -/
structure Channel (α : Type) where
  queue : List α
  senders : Nat
  receiverAlive : Bool
deriving DecidableEq, Repr

/-- Modelled from the spec: `channel()` returns a (Sender, Receiver) pair
backed by one shared FIFO queue — a fresh channel has an empty queue, one
live Sender and a live Receiver. -/
def channel (α : Type) : Channel α := ⟨[], 1, true⟩

/-- Modelled from the spec: `sender.clone()` returns an additional Sender
sharing the same queue, increasing the count of live producer ends. -/
def Channel.cloneSender (c : Channel α) : Channel α :=
  { c with senders := c.senders + 1 }

/-- Modelled from the spec: dropping a Sender decreases the count of live
producer ends. -/
def Channel.dropSender (c : Channel α) : Channel α :=
  { c with senders := c.senders - 1 }

/-- Modelled from the spec: dropping the Receiver leaves no consumer end. -/
def Channel.dropReceiver (c : Channel α) : Channel α :=
  { c with receiverAlive := false }

/-- Modelled from the spec: `sender.send(msg)` moves `msg` into the queue;
fails with `Disconnected` if the Receiver has already been dropped.  Never
blocks (unbounded queue). -/
def Channel.send (c : Channel α) (msg : α) : Except ChanError (Channel α) :=
  if c.receiverAlive then .ok { c with queue := c.queue ++ [msg] }
  else .error .Disconnected

/-- Modelled from the spec: `receiver.try_recv()` is non-blocking; returns
the next message if immediately available, otherwise fails with `Empty`
(still-connected) or `Disconnected` (no Sender remains). -/
def Channel.tryRecv (c : Channel α) : Except ChanError (α × Channel α) :=
  match c.queue with
  | m :: rest => .ok (m, { c with queue := rest })
  | [] => if c.senders = 0 then .error .Disconnected else .error .Empty

/-- Modelled from the spec: `receiver.recv()` blocks until a message is
available or all Senders are dropped.  `none` models the blocked state;
`some` a returned result: the next message in FIFO order, or the
`Disconnected` error when the channel is empty and no Sender remains. -/
def Channel.recv (c : Channel α) : Option (Except ChanError (α × Channel α)) :=
  match c.queue with
  | m :: rest => some (.ok (m, { c with queue := rest }))
  | [] => if c.senders = 0 then some (.error .Disconnected) else none

/-- Modelled from the spec: the Receiver treated as a sequence (the
`for recieved in rx` loops): repeatedly call `recv`, yielding each returned
message, and stop as soon as `recv` does not return a message (it returned
`Disconnected`, or — impossible once every Sender is dropped — it blocks).
`fuel` bounds the number of `recv` calls; the final channel state is
returned alongside the yielded messages. -/
def Channel.iterFuel : Nat → Channel α → List α × Channel α
  | 0, c => ([], c)
  | n + 1, c =>
    match c.recv with
    | some (.ok (m, c2)) =>
      let r := Channel.iterFuel n c2
      (m :: r.1, r.2)
    | _ => ([], c)

/-- The channel state reached in `message_passing` after the spawned task
sends the string "hi" and exits (dropping its Sender). -/
def messagePassingChan : Channel String :=
  match (channel String).send "hi" with
  | .ok c => c.dropSender
  | .error _ => channel String

/-- Execution state of `sending_multiple_values`: one spawned producer
holding the single Sender with `pending` messages still to send (`dropped`
once it has exited and its Sender is gone), the shared channel, the
messages the main-thread consumer has received so far, and whether the
consumer has observed `Disconnected` (its `for` loop ended). -/
structure Exec1 (α : Type) where
  pending : List α
  dropped : Bool
  chan : Channel α
  received : List α
  done : Bool

/-- Initial state of `sending_multiple_values`: a fresh channel, the
producer yet to send any of `msgs`, nothing received. -/
def Exec1.init (msgs : List α) : Exec1 α := ⟨msgs, false, channel α, [], false⟩

/-- One scheduler step of the producer thread: send the next pending
message (`tx.send(val).unwrap()`), or, when all are sent, exit the thread,
dropping the Sender. -/
def Exec1.prodStep (s : Exec1 α) : Exec1 α :=
  match s.pending with
  | m :: rest =>
    match s.chan.send m with
    | .ok c2 => { s with pending := rest, chan := c2 }
    | .error _ => s
  | [] =>
    if s.dropped then s
    else { s with dropped := true, chan := s.chan.dropSender }

/-- One scheduler step of the consumer (the `for recieved in rx` loop):
`recv` a message if available, end the loop on `Disconnected`, or stay
blocked. -/
def Exec1.consStep (s : Exec1 α) : Exec1 α :=
  if s.done then s
  else
    match s.chan.recv with
    | some (.ok (m, c2)) => { s with chan := c2, received := s.received ++ [m] }
    | some (.error _) => { s with done := true }
    | none => s

/-- Run `sending_multiple_values` under a scheduler interleaving:
`true` schedules the producer thread, `false` the consumer. -/
def Exec1.run (sched : List Bool) (s : Exec1 α) : Exec1 α :=
  match sched with
  | [] => s
  | b :: rest => Exec1.run rest (if b then s.prodStep else s.consStep)

/-- Inductive invariant of the single-producer execution: the received
messages followed by the queued and the still-pending ones are exactly
`msgs` in order; the Receiver stays alive; the Sender count tracks the
producer's `dropped` flag; the Sender is dropped only after everything was
sent; and a finished consumer has received all of `msgs` in order. -/
def Exec1.Inv (msgs : List α) (s : Exec1 α) : Prop :=
  s.received ++ s.chan.queue ++ s.pending = msgs ∧
  s.chan.receiverAlive = true ∧
  s.chan.senders = (if s.dropped then 0 else 1) ∧
  (s.dropped = true → s.pending = []) ∧
  (s.done = true → s.received = msgs)

/-- Scheduler choice in `clone_transmitter`: which thread takes the next
step — the spawned thread holding the cloned Sender `tx1`, the spawned
thread holding the original Sender `tx`, or the consumer loop. -/
inductive Actor where
  | prod1
  | prod2
  | consumer
deriving DecidableEq, Repr

/-- Execution state of `clone_transmitter`: two producer threads, each
with its own Sender end, pending messages and dropped flag, plus the
shared channel and the consumer's state. -/
structure Exec2 (α : Type) where
  pending1 : List α
  dropped1 : Bool
  pending2 : List α
  dropped2 : Bool
  chan : Channel α
  received : List α
  done : Bool

/-- Initial state of `clone_transmitter`: a fresh channel whose Sender has
been cloned (`let tx1 = tx.clone()`), so two live producer ends. -/
def Exec2.init (msgs1 msgs2 : List α) : Exec2 α :=
  ⟨msgs1, false, msgs2, false, (channel α).cloneSender, [], false⟩

/-- One step of the first producer thread: send its next pending message,
or exit and drop its Sender once all are sent. -/
def Exec2.prod1Step (s : Exec2 α) : Exec2 α :=
  match s.pending1 with
  | m :: rest =>
    match s.chan.send m with
    | .ok c2 => { s with pending1 := rest, chan := c2 }
    | .error _ => s
  | [] =>
    if s.dropped1 then s
    else { s with dropped1 := true, chan := s.chan.dropSender }

/-- One step of the second producer thread: send its next pending message,
or exit and drop its Sender once all are sent. -/
def Exec2.prod2Step (s : Exec2 α) : Exec2 α :=
  match s.pending2 with
  | m :: rest =>
    match s.chan.send m with
    | .ok c2 => { s with pending2 := rest, chan := c2 }
    | .error _ => s
  | [] =>
    if s.dropped2 then s
    else { s with dropped2 := true, chan := s.chan.dropSender }

/-- One step of the consumer (the `for recieved in rx` loop): `recv` a
message if available, end the loop on `Disconnected`, or stay blocked. -/
def Exec2.consStep (s : Exec2 α) : Exec2 α :=
  if s.done then s
  else
    match s.chan.recv with
    | some (.ok (m, c2)) => { s with chan := c2, received := s.received ++ [m] }
    | some (.error _) => { s with done := true }
    | none => s

/-- Dispatch one scheduler step to the chosen thread. -/
def Exec2.step (a : Actor) (s : Exec2 α) : Exec2 α :=
  match a with
  | .prod1 => s.prod1Step
  | .prod2 => s.prod2Step
  | .consumer => s.consStep

/-- Run `clone_transmitter` under a scheduler interleaving. -/
def Exec2.run (sched : List Actor) (s : Exec2 α) : Exec2 α :=
  match sched with
  | [] => s
  | a :: rest => Exec2.run rest (Exec2.step a s)

/-- Inductive invariant of the two-producer execution: as multisets, the
received, queued and still-pending messages together are exactly the
messages of both producers; the Receiver stays alive; the live Sender
count tracks the two dropped flags; each Sender is dropped only after its
messages were all sent; and a finished consumer has received every
message exactly once. -/
def Exec2.Inv (msgs1 msgs2 : List α) (s : Exec2 α) : Prop :=
  (s.received : Multiset α) + (s.chan.queue : Multiset α)
      + (s.pending1 : Multiset α) + (s.pending2 : Multiset α)
    = (msgs1 : Multiset α) + (msgs2 : Multiset α) ∧
  s.chan.receiverAlive = true ∧
  s.chan.senders
    = (if s.dropped1 then 0 else 1) + (if s.dropped2 then 0 else 1) ∧
  (s.dropped1 = true → s.pending1 = []) ∧
  (s.dropped2 = true → s.pending2 = []) ∧
  (s.done = true →
    (s.received : Multiset α) = (msgs1 : Multiset α) + (msgs2 : Multiset α))

/-- Error returned by a lock acquisition on a poisoned lock. -/
inductive LockError where
  | Poisoned
deriving DecidableEq, Repr

/-- Modelled from the spec: a GuardedCell (the demo's `Mutex`) is a single
shared value plus an exclusive lock, with a poisoned flag recording that a
holder terminated abnormally while holding the lock. -/
structure GuardedCell (α : Type) where
  value : α
  locked : Bool
  poisoned : Bool
deriving DecidableEq, Repr

/-- Modelled from the spec: `new(initial)` constructs a cell holding
`initial`, unlocked. -/
def GuardedCell.new (a : α) : GuardedCell α := ⟨a, false, false⟩

/-- Modelled from the spec: scoped acquisition — `lock()` together with
the scope of the returned exclusive accessor.  `lock()` fails with
`Poisoned` exactly when the lock is poisoned.  Otherwise the body receives
the current value and either produces the new value (`some`, normal exit)
or terminates abnormally (`none`); on every exit path of the scope the
lock is released: a normal exit leaves the cell unlocked with the body's
result, an abnormal exit leaves it unlocked but poisoned. -/
def GuardedCell.withLock (c : GuardedCell α) (body : α → Option α) :
    Except LockError (GuardedCell α) :=
  if c.poisoned then .error .Poisoned
  else
    match body c.value with
    | some v => .ok ⟨v, false, false⟩
    | none => .ok ⟨c.value, false, true⟩

/-- The `use_mutex` routine (translated from src/src/main.rs): a cell
holding 5; a scoped lock acquisition writes 6 through the exclusive
accessor (`*num = 6`); the inner block ends, releasing the lock. -/
def use_mutex : Except LockError (GuardedCell Int) :=
  (GuardedCell.new 5).withLock (fun _ => some 6)

/-- Error returned by `join` when the joined task terminated abnormally. -/
inductive TaskError where
  | TaskPanicked
deriving DecidableEq, Repr

/-- Modelled from the spec: the outcome of a task body — a produced
result value, or abnormal termination. -/
inductive Outcome (α : Type) where
  | value (a : α)
  | abnormal
deriving DecidableEq, Repr

/-- Modelled from the spec: `spawn(work)` starts `work` on an
independently scheduled thread; the completed task behind a Handle is
modelled by the outcome of running its body. -/
def spawn (work : Unit → Outcome α) : Outcome α := work ()

/-- Modelled from the spec: `join(handle)` blocks the caller until the
task completes; returns the task's result value, or fails with
`TaskPanicked` if the task terminated abnormally. -/
def join : Outcome α → Except TaskError α
  | .value a => .ok a
  | .abnormal => .error .TaskPanicked

/-- The lines printed by `for i in 1..10` in the spawned thread of
`spawn_threadsa` (translated from src/src/main.rs): the range excludes 10. -/
def spawnedThreadLines : List String :=
  (List.range' 1 9).map
    (fun i => "number " ++ toString i ++ " from spawned thread")

/-- The lines printed by `for i in 1..5` on the main thread of
`spawn_threadsa` (translated from src/src/main.rs): the range excludes 5. -/
def mainThreadLines : List String :=
  (List.range' 1 4).map
    (fun i => "number " ++ toString i ++ " from main thread")

/-- The `spawn_threadsa` routine: spawn a thread printing
`spawnedThreadLines`, print `mainThreadLines` on the main thread, then
join the handle; the join result carries the spawned thread's complete
output, so every spawned-thread line exists before `join` returns. -/
def spawn_threadsa : List String × Except TaskError (List String) :=
  (mainThreadLines, join (spawn (fun _ => Outcome.value spawnedThreadLines)))

end RustConc

namespace RustConc

/-- C5: `send(msg)` appends `msg` to the queue and succeeds whenever the
Receiver is still alive, and fails with `Disconnected` exactly when the
Receiver has already been dropped. -/
theorem send_ok_iff_receiverAlive {α : Type} (c : Channel α) (m : α) :
    (c.receiverAlive = true →
      c.send m = .ok { c with queue := c.queue ++ [m] }) ∧
    (c.receiverAlive = false → c.send m = .error .Disconnected) := by
  constructor <;> intro h <;> simp [Channel.send, h]

/-- Witness for C5 at a concrete channel: sending "hi" on a fresh channel
enqueues it, and sending on a channel whose Receiver was dropped fails. -/
theorem send_ok_iff_receiverAlive_witness :
    (channel String).send "hi" = .ok ⟨["hi"], 1, true⟩ ∧
    ((channel String).dropReceiver).send "hi" = .error .Disconnected := by
  refine ⟨?_, ?_⟩
  · exact (send_ok_iff_receiverAlive (channel String) "hi").1 rfl
  · exact (send_ok_iff_receiverAlive ((channel String).dropReceiver) "hi").2 rfl

/-- C9: `try_recv` never blocks (it is a total function on channel states):
it returns the next message when one is immediately available, fails with
`Empty` when the queue is empty but a Sender is still alive, and fails with
`Disconnected` when the queue is empty and no Sender remains. -/
theorem tryRecv_cases {α : Type} (c : Channel α) :
    (∀ m rest, c.queue = m :: rest →
      c.tryRecv = .ok (m, { c with queue := rest })) ∧
    (c.queue = [] → 0 < c.senders → c.tryRecv = .error .Empty) ∧
    (c.queue = [] → c.senders = 0 → c.tryRecv = .error .Disconnected) := by
  refine ⟨?_, ?_, ?_⟩
  · intro m rest h
    simp [Channel.tryRecv, h]
  · intro h hs
    simp [Channel.tryRecv, h, Nat.pos_iff_ne_zero.mp hs]
  · intro h hs
    simp [Channel.tryRecv, h, hs]

/-- Witness for C9 at concrete channels: a message is returned when
available, `Empty` on an empty still-connected channel, `Disconnected`
when no Sender remains. -/
theorem tryRecv_cases_witness :
    (Channel.mk ["hi"] 1 true).tryRecv = .ok ("hi", ⟨[], 1, true⟩) ∧
    (channel String).tryRecv = .error .Empty ∧
    (Channel.mk ([] : List String) 0 true).tryRecv = .error .Disconnected := by
  refine ⟨?_, ?_, ?_⟩
  · exact (tryRecv_cases (Channel.mk ["hi"] 1 true)).1 "hi" [] rfl
  · exact (tryRecv_cases (channel String)).2.1 rfl (by decide)
  · exact (tryRecv_cases (Channel.mk ([] : List String) 0 true)).2.2 rfl rfl

theorem recv_isSome_of_no_senders {α : Type} (c : Channel α)
    (h : c.senders = 0) : c.recv.isSome = true := by
  cases hq : c.queue <;> simp [Channel.recv, hq, h]

theorem iterFuel_eq_queue {α : Type} :
    ∀ (fuel : Nat) (c : Channel α), c.senders = 0 → c.queue.length ≤ fuel →
      Channel.iterFuel fuel c = (c.queue, ⟨[], 0, c.receiverAlive⟩) := by
  intro fuel
  induction fuel with
  | zero =>
    intro c h hl
    obtain ⟨q, s, r⟩ := c
    simp only at h hl ⊢
    have hq : q = [] := List.eq_nil_of_length_eq_zero (Nat.le_zero.mp hl)
    subst hq; subst h
    rfl
  | succ n ih =>
    intro c h hl
    obtain ⟨q, s, r⟩ := c
    simp only at h hl ⊢
    subst h
    cases q with
    | nil => rfl
    | cons m rest =>
      have hr : rest.length ≤ n := by
        simpa using Nat.le_of_succ_le_succ (by simpa using hl)
      have hrec := ih ⟨rest, 0, r⟩ rfl hr
      simp [Channel.iterFuel, Channel.recv, hrec]

theorem iterFuel_empty_closed {α : Type} (fuel : Nat) (r : Bool) :
    (Channel.iterFuel fuel (⟨[], 0, r⟩ : Channel α)).1 = [] := by
  cases fuel <;> rfl

/-- C4: once every Sender has been dropped, `recv` never blocks: it
returns a result (the next queued message, or `Disconnected` when the
queue is empty); the Receiver treated as a sequence yields exactly the
queued messages and then terminates (exactly when `Disconnected` would be
raised), and once exhausted it never yields again. -/
theorem recv_after_all_senders_dropped {α : Type} (c : Channel α)
    (h : c.senders = 0) :
    c.recv.isSome = true ∧
    (c.queue = [] → c.recv = some (.error .Disconnected)) ∧
    ∀ fuel, c.queue.length ≤ fuel →
      Channel.iterFuel fuel c = (c.queue, ⟨[], 0, c.receiverAlive⟩) ∧
      ∀ fuel2,
        (Channel.iterFuel fuel2 (⟨[], 0, c.receiverAlive⟩ : Channel α)).1
          = [] := by
  refine ⟨recv_isSome_of_no_senders c h, ?_, ?_⟩
  · intro hq
    simp [Channel.recv, hq, h]
  · intro fuel hl
    exact ⟨iterFuel_eq_queue fuel c h hl,
      fun fuel2 => iterFuel_empty_closed fuel2 c.receiverAlive⟩

/-- Witness for C4 at a concrete channel: two queued messages, no live
Sender; two `recv` calls drain them and the iterator never yields again. -/
theorem recv_after_all_senders_dropped_witness :
    (Channel.mk ["a", "b"] 0 true).recv.isSome = true ∧
    Channel.iterFuel 2 (Channel.mk ["a", "b"] 0 true)
      = (["a", "b"], ⟨[], 0, true⟩) ∧
    (Channel.iterFuel 5 (Channel.mk ([] : List String) 0 true)).1 = [] := by
  have h := recv_after_all_senders_dropped (Channel.mk ["a", "b"] 0 true) rfl
  exact ⟨h.1, (h.2.2 2 (by decide)).1, (h.2.2 2 (by decide)).2 5⟩

theorem exec1_inv_init {α : Type} (msgs : List α) :
    Exec1.Inv msgs (Exec1.init msgs) := by
  refine ⟨rfl, rfl, rfl, ?_, ?_⟩ <;> intro h <;> simp [Exec1.init] at h

theorem exec1_inv_prodStep {α : Type} {msgs : List α} {s : Exec1 α}
    (h : Exec1.Inv msgs s) : Exec1.Inv msgs s.prodStep := by
  obtain ⟨h1, h2, h3, h4, h5⟩ := h
  cases hp : s.pending with
  | cons m rest =>
    have hd : s.dropped = false := by
      cases hdd : s.dropped
      · rfl
      · rw [h4 hdd] at hp; cases hp
    have hsend : s.chan.send m
        = .ok { s.chan with queue := s.chan.queue ++ [m] } := by
      simp [Channel.send, h2]
    simp only [Exec1.prodStep, hp, hsend]
    refine ⟨?_, h2, ?_, ?_, h5⟩
    · rw [hp] at h1
      simp only [List.append_assoc, List.singleton_append] at h1 ⊢
      exact h1
    · exact h3
    · intro hdd
      rw [hd] at hdd
      cases hdd
  | nil =>
    cases hd : s.dropped with
    | true =>
      simp only [Exec1.prodStep, hp, hd, if_pos rfl]
      exact ⟨h1, h2, h3, h4, h5⟩
    | false =>
      simp only [Exec1.prodStep, hp, hd, Bool.false_eq_true, if_neg,
        not_false_iff]
      refine ⟨?_, h2, ?_, fun _ => rfl, h5⟩
      · rw [hp] at h1
        exact h1
      · rw [hd] at h3
        simp [Channel.dropSender, h3]

theorem exec1_inv_consStep {α : Type} {msgs : List α} {s : Exec1 α}
    (h : Exec1.Inv msgs s) : Exec1.Inv msgs s.consStep := by
  obtain ⟨h1, h2, h3, h4, h5⟩ := h
  cases hdone : s.done with
  | true =>
    simp only [Exec1.consStep, hdone, if_pos rfl]
    exact ⟨h1, h2, h3, h4, h5⟩
  | false =>
    cases hq : s.chan.queue with
    | cons m rest =>
      have hrecv : s.chan.recv
          = some (.ok (m, { s.chan with queue := rest })) := by
        simp [Channel.recv, hq]
      simp only [Exec1.consStep, hdone, Bool.false_eq_true, if_neg,
        not_false_iff, hrecv]
      refine ⟨?_, h2, h3, h4, ?_⟩
      · rw [hq] at h1
        simp only [List.append_assoc, List.singleton_append] at h1 ⊢
        exact h1
      · intro hdd
        simp at hdd
    | nil =>
      cases hs : s.chan.senders with
      | zero =>
        have hrecv : s.chan.recv = some (.error .Disconnected) := by
          simp [Channel.recv, hq, hs]
        simp only [Exec1.consStep, hdone, Bool.false_eq_true, if_neg,
          not_false_iff, hrecv]
        refine ⟨h1, h2, h3, h4, fun _ => ?_⟩
        have hd : s.dropped = true := by
          rw [hs] at h3
          cases hdd : s.dropped
          · rw [hdd] at h3; cases h3
          · rfl
        have hpend := h4 hd
        rw [hq, hpend] at h1
        simpa using h1
      | succ n =>
        have hrecv : s.chan.recv = none := by
          simp [Channel.recv, hq, hs]
        simp only [Exec1.consStep, hdone, Bool.false_eq_true, if_neg,
          not_false_iff, hrecv]
        exact ⟨h1, h2, h3, h4, h5⟩

theorem exec1_inv_run {α : Type} {msgs : List α} :
    ∀ (sched : List Bool) (s : Exec1 α), Exec1.Inv msgs s →
      Exec1.Inv msgs (Exec1.run sched s) := by
  intro sched
  induction sched with
  | nil => intro s h; exact h
  | cons b rest ih =>
    intro s h
    cases b
    · exact ih _ (exec1_inv_consStep h)
    · exact ih _ (exec1_inv_prodStep h)

/-- C1: for every finite sequence of messages sent through a channel with
a single producer end, under every scheduler interleaving of the producer
and the consumer in which the consumer's receive loop has finished, the
consumer received exactly those messages in the order they were sent
(per-producer FIFO) — the property exercised by `sending_multiple_values`. -/
theorem single_producer_fifo {α : Type} (msgs : List α) (sched : List Bool)
    (h : (Exec1.run sched (Exec1.init msgs)).done = true) :
    (Exec1.run sched (Exec1.init msgs)).received = msgs :=
  (exec1_inv_run sched (Exec1.init msgs) (exec1_inv_init msgs)).2.2.2.2 h

/-- Witness for C1 on the `sending_multiple_values` data: the producer
sends "hi", "from", "the", "thread" then exits; the consumer then drains
the channel and receives exactly those four strings in that order. -/
theorem single_producer_fifo_witness :
    (Exec1.run (List.replicate 5 true ++ List.replicate 5 false)
        (Exec1.init ["hi", "from", "the", "thread"])).done = true ∧
    (Exec1.run (List.replicate 5 true ++ List.replicate 5 false)
        (Exec1.init ["hi", "from", "the", "thread"])).received
      = ["hi", "from", "the", "thread"] :=
  ⟨by decide, single_producer_fifo _ _ (by decide)⟩

theorem exec2_inv_init {α : Type} (msgs1 msgs2 : List α) :
    Exec2.Inv msgs1 msgs2 (Exec2.init msgs1 msgs2) := by
  refine ⟨by simp [Exec2.init, channel, Channel.cloneSender], rfl, rfl, ?_, ?_, ?_⟩ <;>
    intro h <;> simp [Exec2.init] at h

theorem exec2_inv_prod1Step {α : Type} {msgs1 msgs2 : List α} {s : Exec2 α}
    (h : Exec2.Inv msgs1 msgs2 s) : Exec2.Inv msgs1 msgs2 s.prod1Step := by
  obtain ⟨h1, h2, h3, h4, h5, h6⟩ := h
  cases hp : s.pending1 with
  | cons m rest =>
    have hd : s.dropped1 = false := by
      cases hdd : s.dropped1
      · rfl
      · rw [h4 hdd] at hp; cases hp
    have hsend : s.chan.send m
        = .ok { s.chan with queue := s.chan.queue ++ [m] } := by
      simp [Channel.send, h2]
    simp only [Exec2.prod1Step, hp, hsend]
    refine ⟨?_, h2, h3, ?_, h5, h6⟩
    · rw [hp] at h1
      rw [← h1]
      simp only [← Multiset.cons_coe, ← Multiset.coe_add,
        ← Multiset.singleton_add]
      abel
    · intro hdd
      rw [hd] at hdd
      cases hdd
  | nil =>
    cases hd : s.dropped1 with
    | true =>
      simp only [Exec2.prod1Step, hp, hd, if_pos rfl]
      exact ⟨h1, h2, h3, h4, h5, h6⟩
    | false =>
      simp only [Exec2.prod1Step, hp, hd, Bool.false_eq_true, if_neg,
        not_false_iff]
      refine ⟨?_, h2, ?_, fun _ => rfl, h5, h6⟩
      · rw [hp] at h1
        exact h1
      · cases hd2 : s.dropped2 <;>
          simp [Channel.dropSender, hd, hd2] at h3 ⊢ <;> omega

theorem exec2_inv_prod2Step {α : Type} {msgs1 msgs2 : List α} {s : Exec2 α}
    (h : Exec2.Inv msgs1 msgs2 s) : Exec2.Inv msgs1 msgs2 s.prod2Step := by
  obtain ⟨h1, h2, h3, h4, h5, h6⟩ := h
  cases hp : s.pending2 with
  | cons m rest =>
    have hd : s.dropped2 = false := by
      cases hdd : s.dropped2
      · rfl
      · rw [h5 hdd] at hp; cases hp
    have hsend : s.chan.send m
        = .ok { s.chan with queue := s.chan.queue ++ [m] } := by
      simp [Channel.send, h2]
    simp only [Exec2.prod2Step, hp, hsend]
    refine ⟨?_, h2, h3, h4, ?_, h6⟩
    · rw [hp] at h1
      rw [← h1]
      simp only [← Multiset.cons_coe, ← Multiset.coe_add,
        ← Multiset.singleton_add]
      abel
    · intro hdd
      rw [hd] at hdd
      cases hdd
  | nil =>
    cases hd : s.dropped2 with
    | true =>
      simp only [Exec2.prod2Step, hp, hd, if_pos rfl]
      exact ⟨h1, h2, h3, h4, h5, h6⟩
    | false =>
      simp only [Exec2.prod2Step, hp, hd, Bool.false_eq_true, if_neg,
        not_false_iff]
      refine ⟨?_, h2, ?_, h4, fun _ => rfl, h6⟩
      · rw [hp] at h1
        exact h1
      · cases hd1 : s.dropped1 <;>
          simp [Channel.dropSender, hd, hd1] at h3 ⊢ <;> omega

theorem exec2_inv_consStep {α : Type} {msgs1 msgs2 : List α} {s : Exec2 α}
    (h : Exec2.Inv msgs1 msgs2 s) : Exec2.Inv msgs1 msgs2 s.consStep := by
  obtain ⟨h1, h2, h3, h4, h5, h6⟩ := h
  cases hdone : s.done with
  | true =>
    simp only [Exec2.consStep, hdone, if_pos rfl]
    exact ⟨h1, h2, h3, h4, h5, h6⟩
  | false =>
    cases hq : s.chan.queue with
    | cons m rest =>
      have hrecv : s.chan.recv
          = some (.ok (m, { s.chan with queue := rest })) := by
        simp [Channel.recv, hq]
      simp only [Exec2.consStep, hdone, Bool.false_eq_true, if_neg,
        not_false_iff, hrecv]
      refine ⟨?_, h2, h3, h4, h5, ?_⟩
      · rw [hq] at h1
        rw [← h1]
        simp only [← Multiset.cons_coe, ← Multiset.coe_add,
          ← Multiset.singleton_add]
        abel
      · intro hdd
        simp at hdd
    | nil =>
      cases hs : s.chan.senders with
      | zero =>
        have hrecv : s.chan.recv = some (.error .Disconnected) := by
          simp [Channel.recv, hq, hs]
        simp only [Exec2.consStep, hdone, Bool.false_eq_true, if_neg,
          not_false_iff, hrecv]
        refine ⟨h1, h2, h3, h4, h5, fun _ => ?_⟩
        have hd12 : s.dropped1 = true ∧ s.dropped2 = true := by
          cases hdd1 : s.dropped1 <;> cases hdd2 : s.dropped2 <;>
            rw [hs, hdd1, hdd2] at h3 <;> simp at h3
          exact ⟨rfl, rfl⟩
        rw [hq, h4 hd12.1, h5 hd12.2] at h1
        simpa using h1
      | succ n =>
        have hrecv : s.chan.recv = none := by
          simp [Channel.recv, hq, hs]
        simp only [Exec2.consStep, hdone, Bool.false_eq_true, if_neg,
          not_false_iff, hrecv]
        exact ⟨h1, h2, h3, h4, h5, h6⟩

theorem exec2_inv_run {α : Type} {msgs1 msgs2 : List α} :
    ∀ (sched : List Actor) (s : Exec2 α), Exec2.Inv msgs1 msgs2 s →
      Exec2.Inv msgs1 msgs2 (Exec2.run sched s) := by
  intro sched
  induction sched with
  | nil => intro s h; exact h
  | cons a rest ih =>
    intro s h
    cases a
    · exact ih _ (exec2_inv_prod1Step h)
    · exact ih _ (exec2_inv_prod2Step h)
    · exact ih _ (exec2_inv_consStep h)

/-- C2: for a channel with two live Sender ends (a Sender and its clone),
under every scheduler interleaving in which the consumer's loop has
finished, the multiset of received messages equals the union of the
multisets sent on the two Sender ends — no message lost, none duplicated
(while the received order may be any interleaving) — the property
exercised by `clone_transmitter`. -/
theorem multi_producer_no_loss_no_dup {α : Type} (msgs1 msgs2 : List α)
    (sched : List Actor)
    (h : (Exec2.run sched (Exec2.init msgs1 msgs2)).done = true) :
    ((Exec2.run sched (Exec2.init msgs1 msgs2)).received : Multiset α)
      = (msgs1 : Multiset α) + (msgs2 : Multiset α) :=
  (exec2_inv_run sched (Exec2.init msgs1 msgs2)
    (exec2_inv_init msgs1 msgs2)).2.2.2.2.2 h

/-- Witness for C2 on the `clone_transmitter` data: both spawned threads
send "hi", "from", "the", "thread" on their own Sender ends; after both
exit and the consumer drains the channel, all eight strings were received,
each exactly once. -/
theorem multi_producer_no_loss_no_dup_witness :
    (Exec2.run
      (List.replicate 5 Actor.prod1 ++ List.replicate 5 Actor.prod2
        ++ List.replicate 9 Actor.consumer)
      (Exec2.init ["hi", "from", "the", "thread"]
        ["hi", "from", "the", "thread"])).done = true ∧
    ((Exec2.run
      (List.replicate 5 Actor.prod1 ++ List.replicate 5 Actor.prod2
        ++ List.replicate 9 Actor.consumer)
      (Exec2.init ["hi", "from", "the", "thread"]
        ["hi", "from", "the", "thread"])).received : Multiset String)
      = (["hi", "from", "the", "thread"] : Multiset String)
        + (["hi", "from", "the", "thread"] : Multiset String) :=
  ⟨by decide, multi_producer_no_loss_no_dup _ _ _ (by decide)⟩

/-- C3: in the `message_passing` scenario — a spawned task sends "hi" then
exits, dropping its Sender — the first blocking `recv` returns "hi", and a
second `recv` on the resulting channel returns the `Disconnected` error. -/
theorem messagePassing_recv_hi_then_disconnected :
    messagePassingChan.recv =
      some (.ok ("hi", ⟨[], 0, true⟩)) ∧
    (Channel.mk ([] : List String) 0 true).recv =
      some (.error .Disconnected) := by
  constructor <;> rfl

/-- C6: a scoped lock acquisition releases the lock on every exit path of
its scope: whenever a `withLock` call returns a cell, that cell is
unlocked — and in `use_mutex`, after the inner block writes 6 through the
exclusive accessor and ends, the lock is free again and the cell holds 6,
so the final print can observe the updated, unlocked cell. -/
theorem scoped_lock_always_released {α : Type} (c : GuardedCell α)
    (body : α → Option α) (c2 : GuardedCell α)
    (h : c.withLock body = .ok c2) :
    c2.locked = false ∧ use_mutex = .ok ⟨6, false, false⟩ := by
  refine ⟨?_, rfl⟩
  by_cases hp : c.poisoned = true
  · rw [GuardedCell.withLock, if_pos hp] at h
    cases h
  · rw [GuardedCell.withLock, if_neg hp] at h
    cases hb : body c.value <;> rw [hb] at h <;>
      injection h with h2 <;> rw [← h2]

/-- Witness for C6 at the `use_mutex` input: locking the cell holding 5
and writing 6 returns an unlocked cell holding 6. -/
theorem scoped_lock_always_released_witness :
    (GuardedCell.mk (6 : Int) false false).locked = false ∧
    use_mutex = .ok ⟨6, false, false⟩ :=
  scoped_lock_always_released (GuardedCell.new 5) (fun _ => some 6)
    ⟨6, false, false⟩ rfl

/-- C7: `lock()` fails with the `Poisoned` error exactly when the lock is
poisoned, and a holder that terminates abnormally while holding the lock
leaves it poisoned, so every subsequent lock acquisition fails with
`Poisoned` — which is why `lock()` returns a fallible result that
`use_mutex` must unwrap. -/
theorem poisoned_lock_semantics {α : Type} (c : GuardedCell α)
    (body : α → Option α) :
    (c.poisoned = true → c.withLock body = .error .Poisoned) ∧
    ((∃ e, c.withLock body = .error e) ↔ c.poisoned = true) ∧
    (c.poisoned = false → body c.value = none →
      c.withLock body = .ok ⟨c.value, false, true⟩ ∧
      ∀ body2 : α → Option α,
        (GuardedCell.mk c.value false true).withLock body2
          = .error .Poisoned) := by
  refine ⟨?_, ⟨?_, ?_⟩, ?_⟩
  · intro hp
    rw [GuardedCell.withLock, if_pos hp]
  · rintro ⟨e, he⟩
    by_cases hp : c.poisoned = true
    · exact hp
    · rw [GuardedCell.withLock, if_neg hp] at he
      cases hb : body c.value <;> rw [hb] at he <;> cases he
  · intro hp
    exact ⟨.Poisoned, by rw [GuardedCell.withLock, if_pos hp]⟩
  · intro hp hb
    constructor
    · rw [GuardedCell.withLock, hp, hb]
      simp
    · intro body2
      rw [GuardedCell.withLock]
      simp

/-- Witness for C7 at concrete cells: locking a poisoned cell fails, and
a body that terminates abnormally inside the scope of `lock()` on a fresh
cell leaves the cell poisoned, after which locking it again fails. -/
theorem poisoned_lock_semantics_witness :
    (GuardedCell.mk (5 : Int) false true).withLock (fun v => some v)
      = .error .Poisoned ∧
    (GuardedCell.new (5 : Int)).withLock (fun _ => none)
      = .ok ⟨5, false, true⟩ ∧
    (GuardedCell.mk (5 : Int) false true).withLock (fun _ => some 0)
      = .error .Poisoned := by
  refine ⟨(poisoned_lock_semantics _ (fun v => some v)).1 rfl, ?_, ?_⟩
  · exact ((poisoned_lock_semantics (GuardedCell.new (5 : Int))
      (fun _ => none)).2.2 rfl rfl).1
  · exact ((poisoned_lock_semantics (GuardedCell.new (5 : Int))
      (fun _ => none)).2.2 rfl rfl).2 (fun _ => some 0)

/-- C8: `join` on a Handle returns the task's produced result value when
the task body completed normally, and fails with `TaskPanicked` exactly
when the task body terminated abnormally — the failure is propagated to
the joiner as a value, as in the `join().unwrap()` calls of
`spawn_threadsa` and `closures_and_threads`. -/
theorem join_result_or_taskPanicked {α : Type} (work : Unit → Outcome α) :
    (∀ a, work () = .value a → join (spawn work) = .ok a) ∧
    (work () = .abnormal → join (spawn work) = .error .TaskPanicked) ∧
    (join (spawn work) = .error .TaskPanicked ↔ work () = .abnormal) := by
  refine ⟨?_, ?_, ⟨?_, ?_⟩⟩
  · intro a h
    rw [spawn, h, join]
  · intro h
    rw [spawn, h, join]
  · intro h
    cases hw : work ()
    · rw [spawn, hw, join] at h
      cases h
    · rfl
  · intro h
    rw [spawn, h, join]

/-- Witness for C8: joining a task that produced the vector-printing
line of `closures_and_threads` yields that value, and joining an
abnormally terminated task yields `TaskPanicked`. -/
theorem join_result_or_taskPanicked_witness :
    join (spawn (fun _ => Outcome.value "vector: [1, 2, 3]"))
      = .ok "vector: [1, 2, 3]" ∧
    join (spawn (fun _ => (Outcome.abnormal : Outcome String)))
      = .error .TaskPanicked :=
  ⟨(join_result_or_taskPanicked
      (fun _ => Outcome.value "vector: [1, 2, 3]")).1 _ rfl,
   (join_result_or_taskPanicked
      (fun _ => (Outcome.abnormal : Outcome String))).2.1 rfl⟩

/-- C10: `spawn_threadsa`'s main loop prints exactly the four lines
"number i from main thread" for i = 1, 2, 3, 4 (the range 1..5 excludes
5), its spawned thread prints exactly the nine lines
"number i from spawned thread" for i = 1 through 9 (the range 1..10
excludes 10), and `join` has observed the spawned thread's complete
output when it returns. -/
theorem spawn_threadsa_output :
    spawn_threadsa =
      (["number 1 from main thread", "number 2 from main thread",
        "number 3 from main thread", "number 4 from main thread"],
       .ok ["number 1 from spawned thread", "number 2 from spawned thread",
        "number 3 from spawned thread", "number 4 from spawned thread",
        "number 5 from spawned thread", "number 6 from spawned thread",
        "number 7 from spawned thread", "number 8 from spawned thread",
        "number 9 from spawned thread"]) ∧
    mainThreadLines.length = 4 ∧ spawnedThreadLines.length = 9 :=
  ⟨rfl, rfl, rfl⟩

end RustConc
